import Mathlib

/-!
Verification model of the LaTeX conversion service in `src/main.py`:
the filename sanitizer, asset injection, archive entry-document search,
the PDF renderer adapter, and the request pipeline `convert_latex`.
External effects (filesystem, subprocess, HTTP framework) are modelled
explicitly: the filesystem as finite maps, subprocess outcomes and
stage outcomes as oracle parameters, and raised exceptions as values.
-/

namespace LatexApp

/-- Python `str.endswith`: a suffix test on the character sequence. -/
def strEndsWith (s suffix : String) : Bool :=
  suffix.toList.isSuffixOf s.toList

/-- Characters kept by the regular expression class
`[a-zA-Z0-9_\-\. ]` in `sanitize_filename` (`src/main.py`, line 25). -/
def allowedChar (c : Char) : Bool :=
  ('a' ≤ c && c ≤ 'z') || ('A' ≤ c && c ≤ 'Z') || ('0' ≤ c && c ≤ '9') ||
  c == '_' || c == '-' || c == '.' || c == ' '

/-- The character list after the last slash: `os.path.basename` on POSIX
keeps everything after the final path separator. -/
def basenameChars (cs : List Char) : List Char :=
  (cs.reverse.takeWhile (fun c => c != '/')).reverse

/-- `os.path.basename` (POSIX), used by `sanitize_filename` (line 24). -/
def posixBasename (s : String) : String :=
  String.mk (basenameChars s.toList)

/-- `sanitize_filename` (`src/main.py`, lines 23-28): strip path
components with `os.path.basename`, delete every character outside
`[a-zA-Z0-9_\-\. ]`, and replace an empty result by `"document"`. -/
def sanitize_filename (s : String) : String :=
  let name := basenameChars s.toList
  let cleaned := name.filter allowedChar
  if cleaned.isEmpty then "document" else String.mk cleaned

/-- `pathlib` stem of a plain file name: drop the final suffix, where a
suffix starts at the last dot only if that dot is neither the first nor
the last character of the name. -/
def nameStem (name : String) : String :=
  let cs := name.toList
  let afterDot := (cs.reverse.takeWhile (fun c => c != '.')).length
  if afterDot = cs.length then name
  else if cs.length - afterDot - 1 = 0 then name
  else if afterDot = 0 then name
  else String.mk (cs.take (cs.length - afterDot - 1))

/-- `Path(s).stem`: the stem of the last path component. -/
def pyStem (s : String) : String :=
  nameStem (posixBasename s)

/-- Exceptions raised by the pipeline: FastAPI `HTTPException` with a
status code and detail string, or any other Python exception (class
name and message), such as the `FileNotFoundError` that
`subprocess.run` raises when the executable is missing. -/
inductive Exn where
  | httpException (status : Nat) (detail : String)
  | pyError (kind : String) (msg : String)
deriving DecidableEq, Repr

/-- Modelled from the spec: the HTTP status the framework layer reports
for an exception escaping the handler — an `HTTPException` carries its
own status, and any other uncaught exception is reported as HTTP 500
(spec section 6: "HTTP 500 (required external backend not installed)"). -/
def httpStatusOf : Exn → Nat
  | .httpException s _ => s
  | .pyError _ _ => 500

/-- A workspace directory modelled as a finite map from root-level file
names to file contents (`none` = no such file). -/
def Workspace : Type := String → Option String

/-- One iteration of the loop in `_inject_assets` (lines 42-47): copy
the asset only if no file of that name exists at the destination. -/
def copyIfAbsent (w : Workspace) (item : String × String) : Workspace :=
  if (w item.1).isSome then w
  else fun n => if n = item.1 then some item.2 else w n

/-- `LatexConverter._inject_assets` (lines 32-47): if the assets
directory is missing (`none`) return with only a warning printed;
otherwise copy each asset file into the workspace root, skipping names
already present. -/
def _inject_assets (assets : Option (List (String × String))) (w : Workspace) : Workspace :=
  match assets with
  | none => w
  | some items => items.foldl copyIfAbsent w

/-- Writing a file with `open(path, "wb")` (lines 61-62): creates or
overwrites the file at that name. -/
def writeFile (w : Workspace) (fname content : String) : Workspace :=
  fun n => if n = fname then some content else w n

/-- `LatexConverter._save_upload_file` (lines 49-64): inject assets
first, then save the uploaded bytes under the upload file name. -/
def _save_upload_file (assets : Option (List (String × String)))
    (w : Workspace) (fname content : String) : Workspace :=
  writeFile (_inject_assets assets w) fname content

/-- A relative path inside the workspace, as its list of components;
`[n]` is a file named `n` at the workspace root. -/
abbrev RelPath := List String

/-- Whether a path is a root-level file matched by `glob("*.tex")`
(line 83): a single component ending in `.tex`. -/
def isRootTex (p : RelPath) : Bool :=
  match p with
  | [n] => strEndsWith n ".tex"
  | _ => false

/-- The entry-document search of `_extract_and_find_tex` (lines 76-85),
over the listing `files` of the workspace after extraction (in
directory-listing order) and the stem of the uploaded zip:
1. `main.tex` at the workspace root;
2. `<zip-stem>.tex` at the workspace root;
3. the first root-level file matching `glob("*.tex")`. -/
def findTex (files : List RelPath) (zipStem : String) : Option RelPath :=
  if ["main.tex"] ∈ files then some ["main.tex"]
  else if [zipStem ++ ".tex"] ∈ files then some [zipStem ++ ".tex"]
  else
    match files.filter isRootTex with
    | [] => none
    | f :: _ => some f

/-- Rule 3 as the spec words it ("the first file … matching the source
extension anywhere under the Workspace", subdirectories included); kept
separate from `findTex`, which is translated from the source, so the
two can be compared. -/
def findTexSpecAnywhere (files : List RelPath) (zipStem : String) : Option RelPath :=
  if ["main.tex"] ∈ files then some ["main.tex"]
  else if [zipStem ++ ".tex"] ∈ files then some [zipStem ++ ".tex"]
  else
    match files.filter (fun p => strEndsWith (p.getLastD "") ".tex") with
    | [] => none
    | f :: _ => some f

/-- `_extract_and_find_tex` result (lines 76-87): the found entry
document, or the HTTP 400 structural error when no rule matches. -/
def _extract_and_find_tex (files : List RelPath) (zipStem : String) : Except Exn RelPath :=
  match findTex files zipStem with
  | some p => .ok p
  | none => .error (.httpException 400 "No .tex file found in the ZIP archive.")

/-- A resolved file path: the containing directory and the file name.
`Path(dir) / name` has `.parent = dir` and `.name = name`. -/
structure FPath where
  dir : String
  name : String
deriving DecidableEq, Repr

/-- The string form `dir/name` of a resolved path. -/
def FPath.toStr (p : FPath) : String := p.dir ++ "/" ++ p.name

/-- `Path.parent` of a resolved path. -/
def FPath.parent (p : FPath) : String := p.dir

/-- Outcome of `subprocess.run(cmd, check=True, ...)`: normal exit,
`CalledProcessError` with the captured stderr on a non-zero exit code,
or `FileNotFoundError` when the executable is not installed. -/
inductive ProcOutcome where
  | success
  | calledProcessError (stderr : String)
  | fileNotFoundError (msg : String)
deriving DecidableEq, Repr

/-- The subprocess invocation record: argument vector, working
directory, and whether stdout/stderr are captured via pipes. -/
structure Invoc where
  cmd : List String
  cwd : String
  capturesOutput : Bool
deriving DecidableEq, Repr

/-- `LatexConverter.to_pdf` (lines 89-104): run `tectonic` with the
input path, `--outdir`, `--print`, `--keep-intermediates`, captured
pipes, and `cwd = input_path.parent`; on `CalledProcessError` raise
HTTP 422 with the decoded stderr; on success return
`output_dir / (input_path.stem + ".pdf")`. A `FileNotFoundError` from
`subprocess.run` is not caught and escapes as-is. -/
def to_pdf (input : FPath) (output_dir : String) (proc : ProcOutcome) :
    Invoc × Except Exn String :=
  let inv : Invoc :=
    ⟨["tectonic", input.toStr, "--outdir", output_dir, "--print", "--keep-intermediates"],
      input.parent, true⟩
  match proc with
  | .success => (inv, .ok (output_dir ++ "/" ++ nameStem input.name ++ ".pdf"))
  | .calledProcessError stderr =>
      (inv, .error (.httpException 422 ("LaTeX Compilation Failed:\n" ++ stderr)))
  | .fileNotFoundError msg => (inv, .error (.pyError "FileNotFoundError" msg))

/-- The `ConversionFormat` enum (lines 19-21). -/
inductive ConversionFormat where
  | PDF
  | MARKDOWN
deriving DecidableEq, Repr

/-- The extension appended to the download name per format
(lines 156 and 160). -/
def fmtExt : ConversionFormat → String
  | .PDF => ".pdf"
  | .MARKDOWN => ".md"

/-- The media type of the response per format (lines 155 and 159). -/
def fmtMediaType : ConversionFormat → String
  | .PDF => "application/pdf"
  | .MARKDOWN => "text/markdown"

/-- A request to `POST /convert/{target_format}`: the path parameter,
the upload file name, and the optional `output_filename` query
parameter. -/
structure Request where
  target_format : ConversionFormat
  filename : String
  output_filename : Option String
deriving DecidableEq, Repr

/-- Oracle outcomes of the effectful stages of `convert_latex`: saving
the upload, resolving the archive entry document, rendering, and the
final rename. Each either succeeds with its value or raises. -/
structure StageOutcomes where
  save : Except Exn FPath
  extract : Except Exn FPath
  render : Except Exn String
  rename : Except Exn Unit
deriving Repr

/-- Observable side effects of one request, in order: creating the
temporary directory, invoking the renderer, synchronous cleanup
(`cleanup_temp_dir` called inline), and scheduling cleanup as a
background task. -/
inductive Event where
  | mkdtemp
  | renderCall
  | cleanupSync
  | cleanupScheduled
deriving DecidableEq, Repr

/-- The successful `FileResponse` (line 169): file path, download
name, media type. -/
structure Response where
  path : String
  filename : String
  media_type : String
deriving DecidableEq, Repr

/-- The download base name computed at lines 135-138: the sanitized
`output_filename` query parameter when it is present and nonempty
(Python truthiness), otherwise the stem of the uploaded file name,
taken without sanitization. -/
def downloadNameOf (req : Request) : String :=
  match req.output_filename with
  | some s => if s.isEmpty then pyStem req.filename else sanitize_filename s
  | none => pyStem req.filename

/-- `convert_latex` (lines 125-173), with the effectful stages supplied
by `st` and the `tempfile.mkdtemp()` result by `temp_dir`. Returns the
response or the escaping exception, together with the ordered list of
observable events. The `try` body runs save, then extract for a zip
upload, then render, then the rename when the render output path
differs from the canonical download path, then schedules cleanup as a
background task; the `except` clause calls `cleanup_temp_dir`
synchronously and re-raises the same exception. -/
def convert_latex (req : Request) (st : StageOutcomes) (temp_dir : String) :
    Except Exn Response × List Event :=
  if !(strEndsWith req.filename ".tex" || strEndsWith req.filename ".zip") then
    (.error (.httpException 400 "Only .tex or .zip files are supported"), [])
  else
    match st.save with
    | .error e => (.error e, [.mkdtemp, .cleanupSync])
    | .ok saved_path =>
      match (if strEndsWith req.filename ".zip" then st.extract else .ok saved_path) with
      | .error e => (.error e, [.mkdtemp, .cleanupSync])
      | .ok _input =>
        match st.render with
        | .error e => (.error e, [.mkdtemp, .renderCall, .cleanupSync])
        | .ok result_path =>
          match (if result_path = temp_dir ++ "/" ++ (downloadNameOf req ++ fmtExt req.target_format)
                 then Except.ok () else st.rename) with
          | .error e => (.error e, [.mkdtemp, .renderCall, .cleanupSync])
          | .ok _ =>
              (.ok ⟨temp_dir ++ "/" ++ (downloadNameOf req ++ fmtExt req.target_format),
                    downloadNameOf req ++ fmtExt req.target_format,
                    fmtMediaType req.target_format⟩,
               [.mkdtemp, .renderCall, .cleanupScheduled])

/-! ### Helper lemmas about `takeWhile`, `basenameChars` and the sanitizer -/

theorem mem_of_mem_takeWhile {α} (p : α → Bool) :
    ∀ (l : List α) (a : α), a ∈ l.takeWhile p → a ∈ l := by
  intro l
  induction l with
  | nil => intro a h; simp [List.takeWhile] at h
  | cons x xs ih =>
    intro a h
    by_cases hx : p x
    · rw [List.takeWhile_cons_of_pos hx] at h
      rcases List.mem_cons.mp h with rfl | h2
      · exact List.mem_cons_self _ _
      · exact List.mem_cons_of_mem _ (ih a h2)
    · rw [List.takeWhile_cons_of_neg hx] at h
      cases h

theorem pred_of_mem_takeWhile {α} (p : α → Bool) :
    ∀ (l : List α) (a : α), a ∈ l.takeWhile p → p a = true := by
  intro l
  induction l with
  | nil => intro a h; simp [List.takeWhile] at h
  | cons x xs ih =>
    intro a h
    by_cases hx : p x
    · rw [List.takeWhile_cons_of_pos hx] at h
      rcases List.mem_cons.mp h with rfl | h2
      · exact hx
      · exact ih a h2
    · rw [List.takeWhile_cons_of_neg hx] at h
      cases h

theorem takeWhile_all_eq {α} (p : α → Bool) :
    ∀ l : List α, (∀ a ∈ l, p a = true) → l.takeWhile p = l := by
  intro l
  induction l with
  | nil => intro _; rfl
  | cons x xs ih =>
    intro h
    rw [List.takeWhile_cons_of_pos (h x (List.mem_cons_self _ _))]
    rw [ih (fun a ha => h a (List.mem_cons_of_mem _ ha))]

theorem mem_of_mem_basenameChars (cs : List Char) (c : Char)
    (h : c ∈ basenameChars cs) : c ∈ cs := by
  unfold basenameChars at h
  rw [List.mem_reverse] at h
  have := mem_of_mem_takeWhile _ _ _ h
  rwa [List.mem_reverse] at this

theorem noSlash_of_mem_basenameChars (cs : List Char) (c : Char)
    (h : c ∈ basenameChars cs) : c ≠ '/' := by
  unfold basenameChars at h
  rw [List.mem_reverse] at h
  have := pred_of_mem_takeWhile _ _ _ h
  simpa using this

theorem basenameChars_of_noSlash (cs : List Char)
    (h : ∀ c ∈ cs, c ≠ '/') : basenameChars cs = cs := by
  unfold basenameChars
  rw [takeWhile_all_eq _ _ (fun a ha => by
    simpa using h a (List.mem_reverse.mp ha))]
  exact List.reverse_reverse cs

theorem allowedChar_ne_slash (c : Char) (h : allowedChar c = true) : c ≠ '/' := by
  intro hc
  rw [hc] at h
  exact absurd h (by decide)

theorem toList_mk (l : List Char) : (String.mk l).toList = l := rfl

theorem sanitize_eq (s : String) :
    sanitize_filename s =
      if ((basenameChars s.toList).filter allowedChar).isEmpty then "document"
      else String.mk ((basenameChars s.toList).filter allowedChar) := rfl

/-- Every character of the sanitizer output is in the allowed class. -/
theorem sanitize_chars_allowed (s : String) :
    ∀ c ∈ (sanitize_filename s).toList, allowedChar c = true := by
  intro c h
  rw [sanitize_eq] at h
  cases hc : (basenameChars s.toList).filter allowedChar with
  | nil =>
    rw [hc] at h
    simp only [List.isEmpty_nil, if_true] at h
    fin_cases h <;> decide
  | cons x xs =>
    rw [hc] at h
    simp only [List.isEmpty_cons, Bool.false_eq_true, if_false] at h
    rw [toList_mk] at h
    rw [← hc] at h
    exact (List.mem_filter.mp h).2

/-- The sanitizer never returns the empty string. -/
theorem sanitize_ne_empty (s : String) : sanitize_filename s ≠ "" := by
  rw [sanitize_eq]
  cases hc : (basenameChars s.toList).filter allowedChar with
  | nil =>
    simp only [List.isEmpty_nil, if_true]
    decide
  | cons x xs =>
    simp only [List.isEmpty_cons, Bool.false_eq_true, if_false]
    intro hEq
    have h2 : x :: xs = [] := congrArg String.toList hEq
    exact List.noConfusion h2

/-- Sanitizing a string all of whose characters are allowed and nonempty
returns it unchanged. -/
theorem sanitize_of_allowed (l : List Char) (hne : l ≠ [])
    (h : ∀ c ∈ l, allowedChar c = true) :
    sanitize_filename (String.mk l) = String.mk l := by
  rw [sanitize_eq]
  rw [toList_mk]
  rw [basenameChars_of_noSlash l (fun c hc => allowedChar_ne_slash c (h c hc))]
  rw [List.filter_eq_self.mpr h]
  cases l with
  | nil => exact absurd rfl hne
  | cons x xs => rfl

/-- The sanitizer is idempotent. -/
theorem sanitize_idem (s : String) :
    sanitize_filename (sanitize_filename s) = sanitize_filename s := by
  have hchars := sanitize_chars_allowed s
  have hne := sanitize_ne_empty s
  cases hr : sanitize_filename s with
  | mk l =>
    rw [hr] at hchars hne
    refine sanitize_of_allowed l ?_ (by simpa [toList_mk] using hchars)
    intro hl
    rw [hl] at hne
    exact hne rfl

/-- Sanitizing the basename of a string gives the same result as
sanitizing the string itself. -/
theorem sanitize_basename (s : String) :
    sanitize_filename (posixBasename s) = sanitize_filename s := by
  rw [sanitize_eq, sanitize_eq]
  simp only [posixBasename, toList_mk]
  rw [basenameChars_of_noSlash _ (fun c hc => noSlash_of_mem_basenameChars _ c hc)]

/-- An input made only of disallowed characters sanitizes to the
placeholder. -/
theorem sanitize_all_disallowed (s : String)
    (h : ∀ c ∈ s.toList, allowedChar c = false) : sanitize_filename s = "document" := by
  rw [sanitize_eq]
  have hfil : (basenameChars s.toList).filter allowedChar = [] := by
    rw [List.filter_eq_nil_iff]
    intro a ha
    have := h a (mem_of_mem_basenameChars _ a ha)
    simp [this]
  rw [hfil]
  rfl

/-! ### Helper lemmas about asset injection -/

theorem copyIfAbsent_preserves (w : Workspace) (it : String × String) (n : String)
    (h : (w n).isSome) : copyIfAbsent w it n = w n := by
  unfold copyIfAbsent
  by_cases h1 : (w it.1).isSome
  · rw [if_pos h1]
  · rw [if_neg h1]
    show (if n = it.1 then some it.2 else w n) = w n
    by_cases h2 : n = it.1
    · subst h2; exact absurd h h1
    · rw [if_neg h2]

theorem foldl_copyIfAbsent_preserves :
    ∀ (items : List (String × String)) (w : Workspace) (n : String),
      (w n).isSome → (items.foldl copyIfAbsent w) n = w n := by
  intro items
  induction items with
  | nil => intro w n _; rfl
  | cons x xs ih =>
    intro w n h
    rw [List.foldl_cons]
    have hpres := copyIfAbsent_preserves w x n h
    have hs : (copyIfAbsent w x n).isSome := by rw [hpres]; exact h
    rw [ih (copyIfAbsent w x) n hs, hpres]

theorem copyIfAbsent_present (w : Workspace) (it : String × String) :
    ((copyIfAbsent w it) it.1).isSome := by
  unfold copyIfAbsent
  by_cases h1 : (w it.1).isSome
  · rw [if_pos h1]; exact h1
  · rw [if_neg h1]
    show (if it.1 = it.1 then some it.2 else w it.1).isSome
    rw [if_pos rfl]
    rfl

theorem foldl_copyIfAbsent_present :
    ∀ (items : List (String × String)) (w : Workspace) (it : String × String),
      it ∈ items → ((items.foldl copyIfAbsent w) it.1).isSome := by
  intro items
  induction items with
  | nil => intro w it h; cases h
  | cons x xs ih =>
    intro w it h
    rw [List.foldl_cons]
    rcases List.mem_cons.mp h with rfl | h2
    · have hx := copyIfAbsent_present w it
      rw [foldl_copyIfAbsent_preserves xs _ _ hx]
      exact hx
    · exact ih (copyIfAbsent w x) it h2

theorem foldl_copyIfAbsent_id :
    ∀ (items : List (String × String)) (w : Workspace),
      (∀ it ∈ items, (w it.1).isSome) → items.foldl copyIfAbsent w = w := by
  intro items
  induction items with
  | nil => intro w _; rfl
  | cons x xs ih =>
    intro w h
    rw [List.foldl_cons]
    have hx : copyIfAbsent w x = w := by
      unfold copyIfAbsent
      rw [if_pos (h x (List.mem_cons_self _ _))]
    rw [hx]
    exact ih w (fun it hit => h it (List.mem_cons_of_mem _ hit))

theorem inject_preserves (assets : Option (List (String × String))) (w : Workspace)
    (n : String) (h : (w n).isSome) : _inject_assets assets w n = w n := by
  cases assets with
  | none => rfl
  | some items => exact foldl_copyIfAbsent_preserves items w n h

theorem inject_present (items : List (String × String)) (w : Workspace)
    (it : String × String) (h : it ∈ items) :
    ((_inject_assets (some items) w) it.1).isSome :=
  foldl_copyIfAbsent_present items w it h

theorem inject_inject (assets : Option (List (String × String))) (w : Workspace) :
    _inject_assets assets (_inject_assets assets w) = _inject_assets assets w := by
  cases assets with
  | none => rfl
  | some items =>
    exact foldl_copyIfAbsent_id items _ (fun it hit => inject_present items w it hit)

theorem writeFile_isSome (w : Workspace) (f c n : String) (h : (w n).isSome) :
    ((writeFile w f c) n).isSome := by
  unfold writeFile
  by_cases h2 : n = f
  · rw [if_pos h2]; rfl
  · rw [if_neg h2]; exact h

theorem inject_after_save (assets : Option (List (String × String))) (w : Workspace)
    (f c : String) :
    _inject_assets assets (_save_upload_file assets w f c) = _save_upload_file assets w f c := by
  cases assets with
  | none => rfl
  | some items =>
    apply foldl_copyIfAbsent_id
    intro it hit
    exact writeFile_isSome _ f c it.1 (inject_present items w it hit)

/-! ### Claim theorems -/

/-- Counterexample to claim C1: for a workspace whose only source file
sits in a subdirectory, the code finds no candidate, while rule 3 as
the spec words it ("anywhere under the Workspace, including
subdirectories") would pick that file. -/
theorem C1_counterexample :
    findTex [["archive.zip"], ["sub", "doc.tex"]] "archive" = none ∧
    findTexSpecAnywhere [["archive.zip"], ["sub", "doc.tex"]] "archive" =
      some ["sub", "doc.tex"] := by
  decide

/-- Claim C1 (amended): the entry search applies three rules in strict
order with first match winning — `main.tex` at the workspace root, then
`<archive-stem>.tex` at the root, then the first file directly at the
workspace root matching `*.tex` in listing order; rule 3 does not look
into subdirectories. -/
theorem C1_rule_order (files : List RelPath) (zipStem : String) :
    (["main.tex"] ∈ files → findTex files zipStem = some ["main.tex"]) ∧
    (["main.tex"] ∉ files → [zipStem ++ ".tex"] ∈ files →
      findTex files zipStem = some [zipStem ++ ".tex"]) ∧
    (["main.tex"] ∉ files → [zipStem ++ ".tex"] ∉ files →
      findTex files zipStem = (files.filter isRootTex).head?) := by
  refine ⟨?_, ?_, ?_⟩
  · intro h
    unfold findTex
    rw [if_pos h]
  · intro h1 h2
    unfold findTex
    rw [if_neg h1, if_pos h2]
  · intro h1 h2
    unfold findTex
    rw [if_neg h1, if_neg h2]
    cases files.filter isRootTex <;> rfl

/-- Witness for C1 at concrete listings exercising each rule. -/
theorem C1_witness :
    findTex [["main.tex"], ["other.tex"]] "a" = some ["main.tex"] ∧
    findTex [["b.tex"], ["other.tex"]] "b" = some ["b.tex"] ∧
    findTex [["z.zip"], ["c.tex"], ["d.tex"]] "z" = some ["c.tex"] :=
  ⟨(C1_rule_order [["main.tex"], ["other.tex"]] "a").1 (by decide),
   (C1_rule_order [["b.tex"], ["other.tex"]] "b").2.1 (by decide) (by decide),
   by
     have h := (C1_rule_order [["z.zip"], ["c.tex"], ["d.tex"]] "z").2.2
       (by decide) (by decide)
     rw [h]
     decide⟩

/-- Claim C2: when any stage after the temporary directory is created
raises, `convert_latex` performs synchronous cleanup and then returns
that very exception value, unchanged in kind and payload. -/
theorem C2_cleanup_then_propagate (req : Request) (st : StageOutcomes)
    (temp_dir : String) (e : Exn) (p q : FPath) (result_path : String)
    (hv : (strEndsWith req.filename ".tex" || strEndsWith req.filename ".zip") = true) :
    (st.save = .error e →
      convert_latex req st temp_dir = (.error e, [.mkdtemp, .cleanupSync])) ∧
    (st.save = .ok p →
      (if strEndsWith req.filename ".zip" then st.extract else Except.ok p) = .error e →
      convert_latex req st temp_dir = (.error e, [.mkdtemp, .cleanupSync])) ∧
    (st.save = .ok p →
      (if strEndsWith req.filename ".zip" then st.extract else Except.ok p) = .ok q →
      st.render = .error e →
      convert_latex req st temp_dir = (.error e, [.mkdtemp, .renderCall, .cleanupSync])) ∧
    (st.save = .ok p →
      (if strEndsWith req.filename ".zip" then st.extract else Except.ok p) = .ok q →
      st.render = .ok result_path →
      result_path ≠ temp_dir ++ "/" ++ (downloadNameOf req ++ fmtExt req.target_format) →
      st.rename = .error e →
      convert_latex req st temp_dir = (.error e, [.mkdtemp, .renderCall, .cleanupSync])) := by
  have hv' : (!(strEndsWith req.filename ".tex" || strEndsWith req.filename ".zip")) = false := by
    rw [hv]
    rfl
  refine ⟨?_, ?_, ?_, ?_⟩
  · intro hsave
    simp [convert_latex, hv', hsave]
  · intro hsave hin
    simp [convert_latex, hv', hsave, hin]
  · intro hsave hin hrender
    simp [convert_latex, hv', hsave, hin, hrender]
  · intro hsave hin hrender hne hrename
    simp [convert_latex, hv', hsave, hin, hrender, if_neg hne, hrename]

/-- Stage outcomes in which resolving the entry document fails. -/
def stExtractFail : StageOutcomes :=
  ⟨.ok ⟨"/tmp/w", "x.zip"⟩,
   .error (.httpException 400 "No .tex file found in the ZIP archive."),
   .ok "/tmp/w/out.pdf", .ok ()⟩

/-- Witness for C2: a zip upload whose extract stage raises. -/
theorem C2_witness :
    convert_latex ⟨.PDF, "x.zip", none⟩ stExtractFail "/tmp/w" =
      (.error (.httpException 400 "No .tex file found in the ZIP archive."),
       [.mkdtemp, .cleanupSync]) :=
  (C2_cleanup_then_propagate ⟨.PDF, "x.zip", none⟩ stExtractFail "/tmp/w"
      (.httpException 400 "No .tex file found in the ZIP archive.")
      ⟨"/tmp/w", "x.zip"⟩ ⟨"/tmp/w", "x.zip"⟩ "r" (by decide)).2.1 rfl rfl

/-- Claim C3: injection never overwrites an existing workspace file, a
missing assets directory makes injection a non-fatal no-op, and an
asset whose name is free in the workspace does get copied in. -/
theorem C3_inject_no_overwrite (assets : Option (List (String × String)))
    (w : Workspace) (items : List (String × String)) (it : String × String)
    (n content : String) :
    (_inject_assets none w = w) ∧
    (w n = some content → _inject_assets assets w n = some content) ∧
    (assets = some items → it ∈ items → w it.1 = none →
      ((_inject_assets assets w) it.1).isSome = true) := by
  refine ⟨rfl, ?_, ?_⟩
  · intro h
    have hs : (w n).isSome := by rw [h]; rfl
    rw [inject_preserves assets w n hs, h]
  · rintro rfl hit _
    exact inject_present items w it hit

/-- A workspace already containing a user-supplied `resume.cls`. -/
def wUser : Workspace := fun n => if n = "resume.cls" then some "USER" else none

/-- Witness for C3: the user file survives injection of a same-named
asset, and the asset lands in an empty workspace. -/
theorem C3_witness :
    _inject_assets (some [("resume.cls", "ASSET")]) wUser "resume.cls" = some "USER" ∧
    ((_inject_assets (some [("resume.cls", "ASSET")]) (fun _ => none)) "resume.cls").isSome
      = true :=
  ⟨(C3_inject_no_overwrite (some [("resume.cls", "ASSET")]) wUser
      [("resume.cls", "ASSET")] ("resume.cls", "ASSET") "resume.cls" "USER").2.1 rfl,
   (C3_inject_no_overwrite (some [("resume.cls", "ASSET")]) (fun _ => none)
      [("resume.cls", "ASSET")] ("resume.cls", "ASSET") "resume.cls" "USER").2.2
      rfl (List.mem_cons_self _ _) rfl⟩

/-- Claim C4: the filename sanitizer is total and idempotent, its
output has only characters of the class `[A-Za-z0-9_.\- ]`, it equals
the sanitization of the basename (path components stripped), it is
never empty, and an input made only of disallowed characters yields
the placeholder `"document"`. -/
theorem C4_sanitize_total_idempotent (s : String) :
    sanitize_filename (sanitize_filename s) = sanitize_filename s ∧
    (∀ c ∈ (sanitize_filename s).toList, allowedChar c = true) ∧
    sanitize_filename s ≠ "" ∧
    sanitize_filename s = sanitize_filename (posixBasename s) ∧
    ((∀ c ∈ s.toList, allowedChar c = false) → sanitize_filename s = "document") :=
  ⟨sanitize_idem s, sanitize_chars_allowed s, sanitize_ne_empty s,
   (sanitize_basename s).symm, sanitize_all_disallowed s⟩

/-- Witness for C4 at concrete inputs. -/
theorem C4_witness :
    sanitize_filename (sanitize_filename "a b!.tex") = sanitize_filename "a b!.tex" ∧
    sanitize_filename "$/$" = "document" :=
  ⟨(C4_sanitize_total_idempotent "a b!.tex").1,
   (C4_sanitize_total_idempotent "$/$").2.2.2.2 (by decide)⟩

/-- Claim C5: an upload whose name ends in neither `.tex` nor `.zip` is
rejected with the HTTP 400 validation error before any temporary
directory is created: no `mkdtemp` event occurs. -/
theorem C5_reject_unsupported (req : Request) (st : StageOutcomes) (temp_dir : String)
    (hv : (strEndsWith req.filename ".tex" || strEndsWith req.filename ".zip") = false) :
    convert_latex req st temp_dir =
      (.error (.httpException 400 "Only .tex or .zip files are supported"), []) ∧
    Event.mkdtemp ∉ (convert_latex req st temp_dir).2 := by
  have h1 : convert_latex req st temp_dir =
      (.error (.httpException 400 "Only .tex or .zip files are supported"), []) := by
    unfold convert_latex
    rw [hv]
    rfl
  refine ⟨h1, ?_⟩
  rw [h1]
  simp

/-- Witness for C5: a `.docx` upload is rejected with no events. -/
theorem C5_witness :
    convert_latex ⟨.PDF, "paper.docx", none⟩
        ⟨.ok ⟨"/tmp/w", "paper.docx"⟩, .ok ⟨"/tmp/w", "x.tex"⟩, .ok "r", .ok ()⟩ "/tmp/w" =
      (.error (.httpException 400 "Only .tex or .zip files are supported"), []) :=
  (C5_reject_unsupported ⟨.PDF, "paper.docx", none⟩
      ⟨.ok ⟨"/tmp/w", "paper.docx"⟩, .ok ⟨"/tmp/w", "x.tex"⟩, .ok "r", .ok ()⟩ "/tmp/w"
      (by decide)).1

/-- Claim C6: the PDF renderer runs with its working directory set to
the folder containing the entry document and with captured pipes; a
non-zero exit becomes the HTTP 422 compilation error carrying the
captured error stream; success returns the output directory joined
with the entry document stem plus `.pdf`. -/
theorem C6_to_pdf_contract (input : FPath) (output_dir : String) (proc : ProcOutcome) :
    (to_pdf input output_dir proc).1.cwd = input.parent ∧
    (to_pdf input output_dir proc).1.capturesOutput = true ∧
    (∀ stderr, proc = .calledProcessError stderr →
      (to_pdf input output_dir proc).2 =
        .error (.httpException 422 ("LaTeX Compilation Failed:\n" ++ stderr))) ∧
    (proc = .success →
      (to_pdf input output_dir proc).2 =
        .ok (output_dir ++ "/" ++ nameStem input.name ++ ".pdf")) := by
  cases proc with
  | success =>
    refine ⟨rfl, rfl, ?_, fun _ => rfl⟩
    intro stderr h
    cases h
  | calledProcessError s =>
    refine ⟨rfl, rfl, ?_, ?_⟩
    · intro stderr h
      injection h with h2
      rw [h2]
      rfl
    · intro h
      cases h
  | fileNotFoundError m =>
    refine ⟨rfl, rfl, ?_, ?_⟩
    · intro stderr h
      cases h
    · intro h
      cases h

/-- Witness for C6: a failing and a succeeding compilation. -/
theorem C6_witness :
    (to_pdf ⟨"/tmp/w", "main.tex"⟩ "/tmp/w" (.calledProcessError "missing brace")).2 =
      .error (.httpException 422 ("LaTeX Compilation Failed:\n" ++ "missing brace")) ∧
    (to_pdf ⟨"/tmp/w", "main.tex"⟩ "/tmp/w" .success).2 =
      .ok ("/tmp/w" ++ "/" ++ nameStem "main.tex" ++ ".pdf") :=
  ⟨(C6_to_pdf_contract ⟨"/tmp/w", "main.tex"⟩ "/tmp/w"
      (.calledProcessError "missing brace")).2.2.1 "missing brace" rfl,
   (C6_to_pdf_contract ⟨"/tmp/w", "main.tex"⟩ "/tmp/w" .success).2.2.2 rfl⟩

/-- Stage outcomes of a successful PDF run for the C7 counterexample. -/
def stDefaultName : StageOutcomes :=
  ⟨.ok ⟨"/tmp/w", "my report!.tex"⟩, .ok ⟨"/tmp/w", "my report!.tex"⟩,
   .ok "/tmp/w/my report!.pdf", .ok ()⟩

/-- Counterexample to claim C7: with no `output_filename` supplied, the
download name keeps the uploaded stem verbatim (`my report!.pdf`), while
the sanitized stem plus extension would be `my report.pdf`. -/
theorem C7_counterexample :
    (convert_latex ⟨.PDF, "my report!.tex", none⟩ stDefaultName "/tmp/w").1 =
      .ok ⟨"/tmp/w/my report!.pdf", "my report!.pdf", "application/pdf"⟩ ∧
    sanitize_filename (pyStem "my report!.tex") ++ ".pdf" = "my report.pdf" ∧
    ("my report!.pdf" : String) ≠ "my report.pdf" :=
  ⟨rfl, rfl, by decide⟩

/-- Claim C7 (amended): on success the download name is the sanitized
supplied base name plus the format extension when `output_filename` is
given and nonempty; when it is absent the name is the stem of the
uploaded file name, taken without sanitization, plus the extension. -/
theorem C7_download_name (req : Request) (st : StageOutcomes) (temp_dir : String)
    (resp : Response) (tr : List Event)
    (h : convert_latex req st temp_dir = (.ok resp, tr)) :
    resp.filename = downloadNameOf req ++ fmtExt req.target_format ∧
    (∀ s, req.output_filename = some s → s.isEmpty = false →
      resp.filename = sanitize_filename s ++ fmtExt req.target_format) ∧
    (req.output_filename = none →
      resp.filename = pyStem req.filename ++ fmtExt req.target_format) := by
  have hname : resp.filename = downloadNameOf req ++ fmtExt req.target_format := by
    unfold convert_latex at h
    split at h
    · simp at h
    · split at h
      · simp at h
      · split at h
        · simp at h
        · split at h
          · simp at h
          · split at h
            · simp at h
            · rw [Prod.mk.injEq] at h
              obtain ⟨h1, -⟩ := h
              injection h1 with h2
              rw [← h2]
  refine ⟨hname, ?_, ?_⟩
  · intro s hs hse
    rw [hname]
    unfold downloadNameOf
    rw [hs]
    simp [hse]
  · intro hs
    rw [hname]
    unfold downloadNameOf
    rw [hs]

/-- Stage outcomes of a successful Markdown run for the C7 witness. -/
def stMdOk : StageOutcomes :=
  ⟨.ok ⟨"/tmp/w", "main.zip"⟩, .ok ⟨"/tmp/w", "main.tex"⟩,
   .ok "/tmp/w/output.md", .ok ()⟩

/-- Witness for C7: a supplied output name is sanitized and gets the
`.md` extension. -/
theorem C7_witness :
    (Response.mk "/tmp/w/My Report.md" "My Report.md" "text/markdown").filename =
      sanitize_filename "My Report!" ++ fmtExt ConversionFormat.MARKDOWN :=
  (C7_download_name ⟨.MARKDOWN, "main.zip", some "My Report!"⟩ stMdOk "/tmp/w"
      ⟨"/tmp/w/My Report.md", "My Report.md", "text/markdown"⟩
      [.mkdtemp, .renderCall, .cleanupScheduled] rfl).2.1 "My Report!" rfl rfl

/-- Claim C8: a missing renderer executable escapes `to_pdf` as the
uncaught `FileNotFoundError`, a failure kind distinct from the HTTP 422
compilation error and reported as HTTP 500; the pipeline performs at
most one render attempt per request, so the failure is not retried. -/
theorem C8_backend_missing (input : FPath) (output_dir : String) (msg : String)
    (req : Request) (st : StageOutcomes) (temp_dir : String) :
    (to_pdf input output_dir (.fileNotFoundError msg)).2 =
      .error (.pyError "FileNotFoundError" msg) ∧
    httpStatusOf (.pyError "FileNotFoundError" msg) = 500 ∧
    (∀ d, (Exn.pyError "FileNotFoundError" msg) ≠ Exn.httpException 422 d) ∧
    ((convert_latex req st temp_dir).2.count .renderCall) ≤ 1 := by
  refine ⟨rfl, rfl, ?_, ?_⟩
  · intro d hEq
    cases hEq
  · unfold convert_latex
    split
    · exact Nat.zero_le 1
    · split
      · exact Nat.zero_le 1
      · split
        · exact Nat.zero_le 1
        · split
          · exact Nat.le_refl 1
          · split
            · exact Nat.le_refl 1
            · exact Nat.le_refl 1

/-- The absolute location of a resolved relative path inside the
workspace: the leading components extend the workspace directory and
the last component is the file name. -/
def entryPath (temp_dir : String) (p : RelPath) : FPath :=
  ⟨p.dropLast.foldl (fun d c => d ++ "/" ++ c) temp_dir, p.getLastD ""⟩

/-- Stage outcomes whose extract stage is the real resolver on a
listing with no candidate. -/
def stNoTex : StageOutcomes :=
  ⟨.ok ⟨"/tmp/w", "x.zip"⟩,
   Except.map (entryPath "/tmp/w") (_extract_and_find_tex [["x.zip"], ["notes.txt"]] "x"),
   .ok "/tmp/w/out.pdf", .ok ()⟩

/-- Claim C9: when no search rule matches, resolution fails with the
HTTP 400 structural error, the pipeline surfaces exactly that error
after cleanup, and the renderer is never invoked. -/
theorem C9_structural_error (files : List RelPath) (zipStem : String) (req : Request)
    (st : StageOutcomes) (temp_dir : String) (p : FPath)
    (hfind : findTex files zipStem = none)
    (hzip : strEndsWith req.filename ".zip" = true)
    (hsave : st.save = .ok p)
    (hextract : st.extract =
      Except.map (entryPath temp_dir) (_extract_and_find_tex files zipStem)) :
    _extract_and_find_tex files zipStem =
      .error (.httpException 400 "No .tex file found in the ZIP archive.") ∧
    convert_latex req st temp_dir =
      (.error (.httpException 400 "No .tex file found in the ZIP archive."),
       [.mkdtemp, .cleanupSync]) ∧
    Event.renderCall ∉ (convert_latex req st temp_dir).2 := by
  have hres : _extract_and_find_tex files zipStem =
      .error (.httpException 400 "No .tex file found in the ZIP archive.") := by
    unfold _extract_and_find_tex
    rw [hfind]
  have hv' : (!(strEndsWith req.filename ".tex" || strEndsWith req.filename ".zip")) = false := by
    rw [hzip, Bool.or_true]
    rfl
  have hmain : convert_latex req st temp_dir =
      (.error (.httpException 400 "No .tex file found in the ZIP archive."),
       [.mkdtemp, .cleanupSync]) := by
    simp [convert_latex, hv', hsave, hzip, hextract, hres, Except.map]
  refine ⟨hres, hmain, ?_⟩
  rw [hmain]
  decide

/-- Witness for C9: a zip with only non-source files. -/
theorem C9_witness :
    convert_latex ⟨.PDF, "x.zip", none⟩ stNoTex "/tmp/w" =
      (.error (.httpException 400 "No .tex file found in the ZIP archive."),
       [.mkdtemp, .cleanupSync]) :=
  (C9_structural_error [["x.zip"], ["notes.txt"]] "x" ⟨.PDF, "x.zip", none⟩
      stNoTex "/tmp/w" ⟨"/tmp/w", "x.zip"⟩ (by decide) (by decide) rfl rfl).2.1

/-- Claim C10: asset injection is idempotent, and the second injection
call of the zip pipeline — issued after the upload has been saved into
an already-injected workspace — changes no file, so the two calls
leave the workspace exactly as a single injection would. -/
theorem C10_inject_idempotent (assets : Option (List (String × String)))
    (w : Workspace) (fname content : String) :
    _inject_assets assets (_inject_assets assets w) = _inject_assets assets w ∧
    _inject_assets assets (_save_upload_file assets w fname content) =
      _save_upload_file assets w fname content :=
  ⟨inject_inject assets w, inject_after_save assets w fname content⟩

end LatexApp
